import Mathlib

/-!
Verification of the GoogleTrendWithOHLCV scripts.

The repository contains four Python scripts built around pandas:
`fetch_plot_MA_EMA_GT.py`, `fetch_plot_MA_EMA_GT_OOP.py`,
`merge_GT_OHLCV.py` and `merge_GT_OHLCV_OOP.py`.  This file gives a
shallow embedding of their numeric and tabular transforms:

* series are `List ℚ` (exact rationals in place of the scripts' floats);
* a missing value (pandas `NaN`) is `none : Option ℚ`;
* a raised exception (`IndexError`, division by zero) is `none` in an
  `Option` result;
* date-keyed tables are lists of records with a `Nat` date key, the
  inner join preserving left order like `pd.merge(..., how='inner')`;
* calendar dates for `get_timeframe` are `year/month/day` triples with
  proleptic-Gregorian day stepping, as in Python's `datetime.date`
  arithmetic.
-/

/-! ## Series transforms of the fetch/plot scripts -/

/-- `Series.rolling(window=w).mean()` of pandas: entry `i` is the mean of the
`w` values ending at `i`, `NaN` (here `none`) for the first `w - 1` entries. -/
def rollingMeanOpt (w : Nat) (vals : List ℚ) : List (Option ℚ) :=
  (List.range vals.length).map (fun i =>
    if w ≤ i + 1 then some ((((vals.drop (i + 1 - w)).take w).sum) / (w : ℚ)) else none)

/-- IEEE-style `>` on possibly-missing values: any comparison with `NaN`
is false, as in the numpy floats the scripts compare. -/
def optGtb : Option ℚ → Option ℚ → Bool
  | some a, some b => decide (b < a)
  | _, _ => false

/-- The three-way comparison of `trend_analysis` in
`fetch_plot_MA_EMA_GT.py` (lines 67-72), on possibly-missing values. -/
def sentimentOpt (endV startV : Option ℚ) : String :=
  if optGtb endV startV then "Positive"
  else if optGtb startV endV then "Negative"
  else "Neutral"

/-- The same three-way comparison on present values
(`fetch_plot_MA_EMA_GT_OOP.py` lines 66-71). -/
def sentimentQ (endV startV : ℚ) : String :=
  if startV < endV then "Positive"
  else if endV < startV then "Negative"
  else "Neutral"

/-- `trend_analysis` of `fetch_plot_MA_EMA_GT.py` (lines 47-74): rolling
mean, then compare `iloc[-1]` with `iloc[0]` — the *positional* first
entry, which is `NaN` whenever the window exceeds 1.  `none` models the
`IndexError` raised on an empty series. -/
def trend_analysis (vals : List ℚ) (w : Nat) : Option String :=
  match (rollingMeanOpt w vals).head?, (rollingMeanOpt w vals).getLast? with
  | some s, some e => some (sentimentOpt e s)
  | _, _ => none

/-- `StockTrendAnalysis.trend_analysis` of `fetch_plot_MA_EMA_GT_OOP.py`
(lines 50-73): rolling mean, then compare the first and last entries of
`dropna()` — the first and last *valid* values.  `none` models the
`IndexError` raised when `dropna()` is empty. -/
def trend_analysisOOP (vals : List ℚ) (w : Nat) : Option String :=
  match ((rollingMeanOpt w vals).filterMap id).head?,
        ((rollingMeanOpt w vals).filterMap id).getLast? with
  | some s, some e => some (sentimentQ e s)
  | _, _ => none

/-- The tail of `Series.ewm(span=w, adjust=False).mean()`: given the
previous EMA value `p`, emit `a * v + (1 - a) * p` for each remaining
input `v`. -/
def emaFrom (a : ℚ) (p : ℚ) : List ℚ → List ℚ
  | [] => []
  | v :: rest => (a * v + (1 - a) * p) :: emaFrom a (a * v + (1 - a) * p) rest

/-- `calculate_ema` of both fetch scripts:
`trend_data.ewm(span=window, adjust=False).mean()`, the unadjusted
recursion `EMA[0] = v[0]`, `EMA[t] = a*v[t] + (1-a)*EMA[t-1]` with
`a = 2/(window+1)`. -/
def calculate_ema (vals : List ℚ) (window : Nat) : List ℚ :=
  match vals with
  | [] => []
  | v :: rest => v :: emaFrom (2 / ((window : ℚ) + 1)) v rest

/-- Division as the scripts' runtime performs it: division by zero is an
error/undefined float, modelled as `none`. -/
def divOpt (a b : ℚ) : Option ℚ := if b = 0 then none else some (a / b)

/-- `percentage_trend_analysis` of `fetch_plot_MA_EMA_GT.py` (lines
78-103) and `StockTrendAnalysis.percentage_trend_analysis` of the OOP
variant (identical logic): percent change between `iloc[0]` and
`iloc[-1]`, then a three-way sign comparison.  `none` models the
`IndexError` on an empty series and the unguarded division by a zero
first element. -/
def percentage_trend_analysis (vals : List ℚ) : Option (ℚ × String) :=
  match vals with
  | [] => none
  | v :: rest =>
    match divOpt ((v :: rest).getLast (List.cons_ne_nil v rest) - v) v with
    | none => none
    | some q =>
      some (q * 100,
        if 0 < q * 100 then "Positive"
        else if q * 100 < 0 then "Negative"
        else "Neutral")

example : rollingMeanOpt 3 [1, 2, 3, 4, 5] = [none, none, some 2, some 3, some 4] := by
  norm_num [rollingMeanOpt, List.range_succ]

example : calculate_ema [10, 20, 30] 3 = [10, 15, 45/2] := by
  norm_num [calculate_ema, emaFrom]

example : trend_analysis [1, 2, 3, 4, 5] 3 = some "Neutral" := by
  norm_num [trend_analysis, rollingMeanOpt, List.range_succ, sentimentOpt, optGtb]

example : trend_analysisOOP [1, 2, 3, 4, 5] 3 = some "Positive" := by
  norm_num [trend_analysisOOP, rollingMeanOpt, List.range_succ, sentimentQ]

example : percentage_trend_analysis [100, 90] = some (-10, "Negative") := by
  norm_num [percentage_trend_analysis, divOpt, List.getLast]

example : percentage_trend_analysis [100, 100] = some (0, "Neutral") := by
  norm_num [percentage_trend_analysis, divOpt, List.getLast]

example : percentage_trend_analysis [0, 5] = none := by
  norm_num [percentage_trend_analysis, divOpt, List.getLast]

/-! ## Calendar dates for `get_timeframe`

`get_timeframe(days_back)` in `fetch_plot_MA_EMA_GT.py` (lines 140-158)
and `StockTrendAnalysis.get_timeframe` in both OOP scripts computes
`end_date = date.today()`, `start_date = end_date - timedelta(days=days_back)`
and returns `f"{start} {end}"` with both dates in `%Y-%m-%d` form.
`date.today()` is an ambient input, modelled as an explicit `Date`
parameter; `timedelta` subtraction steps one proleptic-Gregorian day at
a time. -/

structure Date where
  year : Nat
  month : Nat
  day : Nat
deriving DecidableEq

/-- Gregorian leap year, as in Python's `calendar`/`datetime`. -/
def isLeap (y : Nat) : Bool :=
  (y % 4 == 0 && y % 100 != 0) || y % 400 == 0

/-- Number of days in month `m` of year `y`. -/
def monthLength (y m : Nat) : Nat :=
  if m = 2 then (if isLeap y then 29 else 28)
  else if m = 4 ∨ m = 6 ∨ m = 9 ∨ m = 11 then 30
  else 31

/-- The calendar day before `d`. -/
def prevDay (d : Date) : Date :=
  if 2 ≤ d.day then ⟨d.year, d.month, d.day - 1⟩
  else if 2 ≤ d.month then ⟨d.year, d.month - 1, monthLength d.year (d.month - 1)⟩
  else ⟨d.year - 1, 12, 31⟩

/-- `d - timedelta(days=n)`. -/
def subDays (d : Date) : Nat → Date
  | 0 => d
  | n + 1 => subDays (prevDay d) n

/-- A well-formed `datetime.date` (year at least 1, as in Python). -/
def ValidDate (d : Date) : Prop :=
  1 ≤ d.year ∧ 1 ≤ d.month ∧ d.month ≤ 12 ∧ 1 ≤ d.day ∧ d.day ≤ monthLength d.year d.month

instance (d : Date) : Decidable (ValidDate d) := by
  unfold ValidDate; infer_instance

/-- Strict chronological order on calendar dates (lexicographic on
year, month, day). -/
def dateLt (a b : Date) : Prop :=
  a.year < b.year ∨ (a.year = b.year ∧
    (a.month < b.month ∨ (a.month = b.month ∧ a.day < b.day)))

instance (a b : Date) : Decidable (dateLt a b) := by
  unfold dateLt; infer_instance

/-- The decimal digit character for `n % 10`. -/
def digitChar (n : Nat) : Char := Char.ofNat (48 + n % 10)

/-- Four-digit zero-padded decimal rendering (faithful to `%Y` for years
1000-9999). -/
def pad4 (n : Nat) : List Char :=
  [digitChar (n / 1000), digitChar (n / 100), digitChar (n / 10), digitChar n]

/-- Two-digit zero-padded decimal rendering (`%m`, `%d`). -/
def pad2 (n : Nat) : List Char :=
  [digitChar (n / 10), digitChar n]

/-- `d.strftime('%Y-%m-%d')`. -/
def formatDate (d : Date) : String :=
  String.mk (pad4 d.year ++ '-' :: (pad2 d.month ++ '-' :: pad2 d.day))

/-- `get_timeframe` of the scripts, with `date.today()` made explicit:
`f"{(today - timedelta(days=days_back)).strftime('%Y-%m-%d')} {today.strftime('%Y-%m-%d')}"`. -/
def get_timeframe (today : Date) (days_back : Nat) : String :=
  formatDate (subDays today days_back) ++ " " ++ formatDate today

/-- Recognizer for strings of the shape `YYYY-MM-DD`. -/
def isYYYYMMDD (s : String) : Bool :=
  match s.data with
  | [y1, y2, y3, y4, h1, m1, m2, h2, d1, d2] =>
    y1.isDigit && y2.isDigit && y3.isDigit && y4.isDigit && h1 == '-' &&
    m1.isDigit && m2.isDigit && h2 == '-' && d1.isDigit && d2.isDigit
  | _ => false

example : get_timeframe ⟨2026, 10, 12⟩ 20 = "2026-09-22 2026-10-12" := by decide

example : formatDate ⟨2025, 2, 7⟩ = "2025-02-07" := by decide

example : subDays ⟨2024, 3, 1⟩ 1 = ⟨2024, 2, 29⟩ := by decide

/-! ## The merge pipeline of `merge_GT_OHLCV.py` / `merge_GT_OHLCV_OOP.py`

Dates are `Nat` keys (both scripts normalize the two `Date` columns to a
common dtype before merging, so the key comparison is plain equality).
A stock row carries the OHLCV columns; a trend row carries the interest
value and, after `calculate_trend_percentage`, the `Trend_Percentage`
column whose first entry is `NaN` (`none`). -/

structure StockRow where
  date : Nat
  opn : ℚ
  high : ℚ
  low : ℚ
  close : ℚ
  volume : ℚ
deriving DecidableEq

structure TrendRow where
  date : Nat
  interest : ℚ
  trendPct : Option ℚ
deriving DecidableEq

/-- A row of `pd.merge(stock_data, trend_data, on='Date', how='inner')`
before `dropna()`: the `Trend_Percentage` entry may still be missing. -/
structure MergedRowOpt where
  date : Nat
  opn : ℚ
  high : ℚ
  low : ℚ
  close : ℚ
  volume : ℚ
  interest : ℚ
  trendPct : Option ℚ
deriving DecidableEq

/-- A fully populated merged row, as survives `dropna()`. -/
structure MergedRow where
  date : Nat
  opn : ℚ
  high : ℚ
  low : ℚ
  close : ℚ
  volume : ℚ
  interest : ℚ
  trendPct : ℚ
deriving DecidableEq

/-- `Series.pct_change()` applied after the first element: each output is
`(v - prev) / prev` for the running previous value `prev`. -/
def pctChangeFrom (prev : ℚ) : List ℚ → List ℚ
  | [] => []
  | v :: rest => ((v - prev) / prev) :: pctChangeFrom v rest

/-- `Series.pct_change()` of pandas: first entry `NaN` (`none`), entry
`i ≥ 1` is `(v[i] - v[i-1]) / v[i-1]`. -/
def pctChange (vals : List ℚ) : List (Option ℚ) :=
  match vals with
  | [] => []
  | v :: rest => none :: (pctChangeFrom v rest).map some

/-- `calculate_trend_percentage` of `merge_GT_OHLCV.py` (lines 29-40) and
`StockTrendAnalysis.calculate_trend_percentage` of the OOP variant
(lines 41-49): add `Trend_Percentage = interest.pct_change() * 100` to
the trend table. -/
def calculate_trend_percentage (trend : List (Nat × ℚ)) : List TrendRow :=
  List.zipWith (fun dv p => ⟨dv.1, dv.2, p.map (· * 100)⟩)
    trend (pctChange (trend.map Prod.snd))

/-- One output block of the inner merge: all trend rows matching a given
stock row's date, merged into full-width rows. -/
def matchRow (s : StockRow) (trend : List TrendRow) : List MergedRowOpt :=
  (trend.filter (fun t => t.date == s.date)).map
    (fun t => ⟨s.date, s.opn, s.high, s.low, s.close, s.volume, t.interest, t.trendPct⟩)

/-- `pd.merge(stock_data, trend_data, on='Date', how='inner')`: left
(stock) row order is preserved; each stock row contributes the matching
trend rows in their order. -/
def mergeOnDate (stock : List StockRow) (trend : List TrendRow) : List MergedRowOpt :=
  match stock with
  | [] => []
  | s :: rest => matchRow s trend ++ mergeOnDate rest trend

/-- `merged_data.dropna()`: drop every row with a missing entry (only the
`Trend_Percentage` column can be missing here). -/
def dropna (rows : List MergedRowOpt) : List MergedRow :=
  rows.filterMap (fun r =>
    r.trendPct.map (fun p => ⟨r.date, r.opn, r.high, r.low, r.close, r.volume, r.interest, p⟩))

/-- `align_data` of `merge_GT_OHLCV.py` (lines 58-115) and
`StockTrendAnalysis.align_data` of the OOP variant (lines 81-117), after
column-name normalization: inner-join on `Date`, then `dropna()`.  The
function returns the merged table unconditionally; no emptiness check or
exception appears anywhere in either script. -/
def align_data (stock : List StockRow) (trend : List TrendRow) : List MergedRow :=
  dropna (mergeOnDate stock trend)

/-- The `__main__` pipeline of both merge scripts (function version lines
179-193, OOP version lines 176-190): `calculate_trend_percentage` is
applied to the *pre-join* trend table, then `align_data` joins it with
the stock table. -/
def mergePipeline (trendRaw : List (Nat × ℚ)) (stock : List StockRow) : List MergedRow :=
  align_data stock (calculate_trend_percentage trendRaw)

/-- The variant the spec words describe for claim C1: join the raw
interest series with the stock table first, and only then take the
row-over-row percent change of the interest column over the already
joined row sequence.  Stated from the spec's words for comparison with
`mergePipeline`; it is not what the scripts do. -/
def mergePipelineJoinFirst (trendRaw : List (Nat × ℚ)) (stock : List StockRow) : List MergedRow :=
  dropna (List.zipWith (fun ro p => { ro with trendPct := p.map (· * 100) })
    (mergeOnDate stock (trendRaw.map (fun t => (⟨t.1, t.2, none⟩ : TrendRow))))
    (pctChange ((mergeOnDate stock
      (trendRaw.map (fun t => (⟨t.1, t.2, none⟩ : TrendRow)))).map (fun ro => ro.interest))))

example :
    mergePipeline [(0, 10), (1, 20), (2, 40)]
      [⟨0, 1, 1, 1, 1, 1⟩, ⟨2, 1, 1, 1, 1, 1⟩] =
      [⟨2, 1, 1, 1, 1, 1, 40, 100⟩] := by
  norm_num [mergePipeline, align_data, mergeOnDate, matchRow, dropna,
    calculate_trend_percentage, pctChange, pctChangeFrom, List.filterMap_cons]

/-- The variant claim C2 and the spec describe: fail with
`AlignmentError` when the inner join yields zero rows.  Stated from the
spec's words for comparison with `align_data`; no such check exists in
the scripts. -/
def align_dataSpecRaising (stock : List StockRow) (trend : List TrendRow) :
    Except String (List MergedRow) :=
  if mergeOnDate stock trend = [] then Except.error "AlignmentError"
  else Except.ok (dropna (mergeOnDate stock trend))

/-- `Series.min()` of a nonempty column (pandas would give `NaN` on an
empty one; the scripts only use it on the table's `Volume` column). -/
def listMin : List ℚ → ℚ
  | [] => 0
  | v :: rest => rest.foldl min v

/-- `Series.max()`, symmetrically. -/
def listMax : List ℚ → ℚ
  | [] => 0
  | v :: rest => rest.foldl max v

/-- `normalize_volume` of `merge_GT_OHLCV.py` (lines 118-131) and
`StockTrendAnalysis.normalize_volume` of the OOP variant (lines
119-129), restricted to the column it transforms:
`(v - min) / (max - min) * 100` over the whole column. -/
def normalize_volume (vols : List ℚ) : List ℚ :=
  vols.map (fun v => (v - listMin vols) / (listMax vols - listMin vols) * 100)

/-! ## Pearson correlation (`DataFrame.corr()`)

`calculate_correlation` in both merge scripts is `merged_data.corr()`.
pandas computes, for each ordered pair of numeric columns, the covariance
sum divided by `sqrt(varx * vary)` where `varx`/`vary` are the sums of
squared deviations, and yields `NaN` when that divisor is zero (constant
column, or fewer than two rows).  The entry value lives in `ℝ` because of
the square root; all inputs stay rational. -/

/-- Mean of a column. -/
def colMean (xs : List ℚ) : ℚ := xs.sum / (xs.length : ℚ)

/-- Sum of products of deviations of two equally long columns. -/
def covSum (xs ys : List ℚ) : ℚ :=
  (List.zipWith (fun a b => (a - colMean xs) * (b - colMean ys)) xs ys).sum

/-- Sum of squared deviations of one column. -/
def varSum (xs : List ℚ) : ℚ := covSum xs xs

/-- One entry of `DataFrame.corr()`: `NaN` (`none`) when either column
has zero squared-deviation sum, else the Pearson coefficient. -/
noncomputable def pearson (xs ys : List ℚ) : Option ℝ :=
  if varSum xs = 0 ∨ varSum ys = 0 then none
  else some ((covSum xs ys : ℝ) / Real.sqrt ((varSum xs : ℝ) * (varSum ys : ℝ)))

/-- `calculate_correlation` of `merge_GT_OHLCV.py` (lines 134-147) and
the OOP variant (lines 131-139): `merged_data.corr()`, the full matrix
over the table's numeric columns. -/
noncomputable def calculate_correlation (cols : List (List ℚ)) : List (List (Option ℝ)) :=
  cols.map (fun x => cols.map (fun y => pearson x y))

/-- Entry `(i, j)` of the correlation matrix, `none` outside the matrix. -/
noncomputable def corrEntry (cols : List (List ℚ)) (i j : Nat) : Option ℝ :=
  ((calculate_correlation cols).getD i []).getD j none

example : align_dataSpecRaising [⟨0, 1, 1, 1, 1, 1⟩] [⟨1, 50, some 2⟩] =
    Except.error "AlignmentError" := by rfl

example : normalize_volume [0, 50, 100] = [0, 50, 100] := by
  norm_num [normalize_volume, listMin, listMax]

/-! ## Lemmas about the EMA recursion -/

theorem emaFrom_length (a : ℚ) (p : ℚ) (l : List ℚ) :
    (emaFrom a p l).length = l.length := by
  induction l generalizing p with
  | nil => rfl
  | cons v rest ih => simp [emaFrom, ih]

theorem emaFrom_getD (a : ℚ) (l : List ℚ) (p : ℚ) (t : Nat) (ht : t < l.length) :
    (emaFrom a p l).getD t 0 =
      a * l.getD t 0 + (1 - a) * ((p :: emaFrom a p l).getD t 0) := by
  induction l generalizing p t with
  | nil => simp at ht
  | cons v rest ih =>
    cases t with
    | zero => simp [emaFrom]
    | succ s =>
      simp only [emaFrom, List.getD_cons_succ]
      exact ih (a * v + (1 - a) * p) s (by simpa using ht)

theorem calculate_ema_length (vals : List ℚ) (w : Nat) :
    (calculate_ema vals w).length = vals.length := by
  cases vals with
  | nil => rfl
  | cons v rest => simp [calculate_ema, emaFrom_length]


/-! ## Claim C5: the EMA recursion -/

/-- C5: for every non-empty input series, `calculate_ema` with span `w`
computes the unadjusted recursive EMA: the output has one entry per
input, starts at `value[0]`, and satisfies
`EMA[t] = alpha * value[t] + (1 - alpha) * EMA[t-1]` with
`alpha = 2 / (w + 1)`; in particular `[10, 20, 30]` with span 3 gives
`[10, 15, 22.5]`. -/
theorem C5_ema_unadjusted_recursion (vals : List ℚ) (w : Nat) (hne : vals ≠ []) :
    (calculate_ema vals w).length = vals.length ∧
    (calculate_ema vals w).getD 0 0 = vals.getD 0 0 ∧
    (∀ t, t + 1 < vals.length →
      (calculate_ema vals w).getD (t + 1) 0 =
        2 / ((w : ℚ) + 1) * vals.getD (t + 1) 0 +
          (1 - 2 / ((w : ℚ) + 1)) * (calculate_ema vals w).getD t 0) ∧
    calculate_ema [10, 20, 30] 3 = [10, 15, 45 / 2] := by
  obtain ⟨v, rest, rfl⟩ := List.exists_cons_of_ne_nil hne
  refine ⟨calculate_ema_length _ _, by simp [calculate_ema], ?_, ?_⟩
  · intro t ht
    have h1 : t < rest.length := by simpa using ht
    simp only [calculate_ema, List.getD_cons_succ]
    exact emaFrom_getD _ _ _ _ h1
  · norm_num [calculate_ema, emaFrom]

/-- Witness for C5 at `vals = [10, 20, 30]`, `w = 3`. -/
theorem C5_ema_unadjusted_recursion_witness :
    calculate_ema [10, 20, 30] 3 = [10, 15, 45 / 2] :=
  (C5_ema_unadjusted_recursion [10, 20, 30] 3 (by decide)).2.2.2

/-! ## Claim C8: min-max normalization is the identity on a [0,100] column -/

/-- C8: on any volume column whose minimum is exactly 0 and maximum is
exactly 100, the min-max scaling `(v - min) / (max - min) * 100` returns
every value unchanged. -/
theorem C8_normalize_volume_idempotent (vols : List ℚ)
    (hmin : listMin vols = 0) (hmax : listMax vols = 100) :
    normalize_volume vols = vols := by
  unfold normalize_volume
  rw [hmin, hmax]
  have h : ∀ v : ℚ, (v - 0) / (100 - 0) * 100 = v := by intro v; norm_num
  simp [h]

/-- Witness for C8 at the already-scaled column `[0, 50, 100]`. -/
theorem C8_normalize_volume_idempotent_witness :
    listMin [(0 : ℚ), 50, 100] = 0 ∧ listMax [(0 : ℚ), 50, 100] = 100 ∧
      normalize_volume [0, 50, 100] = [0, 50, 100] := by
  refine ⟨by norm_num [listMin, List.foldl, min_def],
    by norm_num [listMax, List.foldl, max_def], ?_⟩
  exact C8_normalize_volume_idempotent _
    (by norm_num [listMin, List.foldl, min_def])
    (by norm_num [listMax, List.foldl, max_def])

/-! ## Claims C6 and C10: the percentage-trend classifier -/

/-- C6: on a series with at least two elements and nonzero first
element, `percentage_trend_analysis` returns
`((last - first) / first * 100, sentiment)` with the three-way sign
comparison; in particular `[100, 90]` gives `(-10, "Negative")` and
`[100, 100]` gives `(0, "Neutral")`. -/
theorem C6_percentage_trend_formula (vals : List ℚ) (h2 : 2 ≤ vals.length)
    (h0 : vals.getD 0 0 ≠ 0) :
    percentage_trend_analysis vals =
      some ((vals.getLast?.getD 0 - vals.getD 0 0) / vals.getD 0 0 * 100,
        if 0 < (vals.getLast?.getD 0 - vals.getD 0 0) / vals.getD 0 0 * 100 then "Positive"
        else if (vals.getLast?.getD 0 - vals.getD 0 0) / vals.getD 0 0 * 100 < 0 then "Negative"
        else "Neutral") ∧
    percentage_trend_analysis [100, 90] = some (-10, "Negative") ∧
    percentage_trend_analysis [100, 100] = some (0, "Neutral") := by
  refine ⟨?_, by norm_num [percentage_trend_analysis, divOpt, List.getLast],
    by norm_num [percentage_trend_analysis, divOpt, List.getLast]⟩
  have hne : vals ≠ [] := by rintro rfl; simp at h2
  obtain ⟨v, rest, rfl⟩ := List.exists_cons_of_ne_nil hne
  have hv : v ≠ 0 := by simpa using h0
  have hlast : (v :: rest).getLast? = some ((v :: rest).getLast (List.cons_ne_nil v rest)) :=
    List.getLast?_eq_getLast _ _
  simp [percentage_trend_analysis, divOpt, hv, hlast]

/-- Witness for C6 at `vals = [100, 90]`. -/
theorem C6_percentage_trend_formula_witness :
    percentage_trend_analysis [100, 100] = some (0, "Neutral") :=
  (C6_percentage_trend_formula [100, 90] (by decide) (by decide)).2.2

/-- C10: the division by the series' first element is unguarded: with a
nonzero first element the result is well-defined (a returned pair), and
with a zero first element the division-by-zero branch is reached (no
pair is produced). -/
theorem C10_unguarded_first_element_division (vals : List ℚ) :
    (vals ≠ [] → vals.getD 0 0 ≠ 0 → ∃ r, percentage_trend_analysis vals = some r) ∧
    (vals ≠ [] → vals.getD 0 0 = 0 → percentage_trend_analysis vals = none) := by
  constructor
  · intro hne h0
    obtain ⟨v, rest, rfl⟩ := List.exists_cons_of_ne_nil hne
    have hv : v ≠ 0 := by simpa using h0
    have hval : percentage_trend_analysis (v :: rest) =
        some (((v :: rest).getLast (List.cons_ne_nil v rest) - v) / v * 100,
          if 0 < ((v :: rest).getLast (List.cons_ne_nil v rest) - v) / v * 100 then "Positive"
          else if ((v :: rest).getLast (List.cons_ne_nil v rest) - v) / v * 100 < 0 then "Negative"
          else "Neutral") := by
      simp only [percentage_trend_analysis, divOpt, if_neg hv]
    exact ⟨_, hval⟩
  · intro hne h0
    obtain ⟨v, rest, rfl⟩ := List.exists_cons_of_ne_nil hne
    have hv : v = 0 := by simpa using h0
    simp [percentage_trend_analysis, divOpt, hv]

/-- Witness for C10 at `[100, 90]` (nonzero first element) and `[0, 5]`
(zero first element). -/
theorem C10_unguarded_first_element_division_witness :
    (∃ r, percentage_trend_analysis [(100 : ℚ), 90] = some r) ∧
      percentage_trend_analysis [(0 : ℚ), 5] = none :=
  ⟨(C10_unguarded_first_element_division [100, 90]).1 (by decide) (by decide),
   (C10_unguarded_first_element_division [0, 5]).2 (by decide) (by decide)⟩

/-! ## Claims C3 and C4: the two trend-sentiment classifiers -/

theorem rollingMeanOpt_length (w : Nat) (vals : List ℚ) :
    (rollingMeanOpt w vals).length = vals.length := by
  simp [rollingMeanOpt]

theorem rollingMeanOpt_one (vals : List ℚ) : rollingMeanOpt 1 vals = vals.map some := by
  apply List.ext_getElem
  · simp [rollingMeanOpt]
  intro i h1 h2
  have hi : i < vals.length := by simpa [rollingMeanOpt] using h1
  simp only [rollingMeanOpt, List.getElem_map, List.getElem_range]
  rw [if_pos (by omega), (by omega : i + 1 - 1 = i),
    List.take_one_drop_eq_of_lt_length hi]
  simp

theorem sentimentOpt_some (e s : ℚ) : sentimentOpt (some e) (some s) = sentimentQ e s := by
  simp [sentimentOpt, sentimentQ, optGtb]

theorem sentimentOpt_nan_start (e : Option ℚ) : sentimentOpt e none = "Neutral" := by
  cases e <;> simp [sentimentOpt, optGtb]

/-- C3 fails as stated: at the series `[1, 2, 3, 4, 5]` with the default
moving-average window 3, the function-based classifier answers
`"Neutral"` (it compares against the positionally first, missing,
rolling-mean entry) while the class-based one answers `"Positive"`. -/
theorem C3_counterexample :
    trend_analysis [1, 2, 3, 4, 5] 3 ≠ trend_analysisOOP [1, 2, 3, 4, 5] 3 := by
  have h1 : trend_analysis [1, 2, 3, 4, 5] 3 = some "Neutral" := by
    norm_num [trend_analysis, rollingMeanOpt, List.range_succ, sentimentOpt, optGtb]
  have h2 : trend_analysisOOP [1, 2, 3, 4, 5] 3 = some "Positive" := by
    norm_num [trend_analysisOOP, rollingMeanOpt, List.range_succ, sentimentQ]
  rw [h1, h2]; decide

/-- C3 amended: the two classifiers agree for moving-average window 1
(where no rolling-mean entry is missing); for any window of at least 2
the function-based classifier compares the last rolling-mean entry with
the missing first one and therefore answers `"Neutral"` on every
non-empty series, regardless of the trend. -/
theorem C3_trend_variants :
    (∀ vals : List ℚ, trend_analysis vals 1 = trend_analysisOOP vals 1) ∧
    (∀ (vals : List ℚ) (w : Nat), 2 ≤ w → vals ≠ [] →
      trend_analysis vals w = some "Neutral") := by
  constructor
  · intro vals
    rw [trend_analysis, trend_analysisOOP, rollingMeanOpt_one]
    cases vals with
    | nil => simp
    | cons v vs =>
      have hlast : (v :: vs).getLast? =
          some ((v :: vs).getLast (List.cons_ne_nil v vs)) :=
        List.getLast?_eq_getLast_of_ne_nil _
      have hh : ((v :: vs).map some).head? = some (some v) := by simp
      have hl2 : ((v :: vs).map some).getLast? =
          some (some ((v :: vs).getLast (List.cons_ne_nil v vs))) := by
        rw [List.getLast?_map, hlast]
        rfl
      have hfm : ((v :: vs).map some).filterMap id = v :: vs := by
        rw [List.filterMap_map]
        simp
      rw [hh, hl2, hfm, List.head?_cons, hlast]
      exact congrArg some (sentimentOpt_some _ _)
  · intro vals w hw hne
    obtain ⟨v, vs, rfl⟩ := List.exists_cons_of_ne_nil hne
    have hhead : (rollingMeanOpt w (v :: vs)).head? = some none := by
      show ((List.range (v :: vs).length).map _).head? = some none
      simp only [List.length_cons]
      rw [List.range_succ_eq_map]
      simp only [List.map_cons, List.head?_cons]
      rw [if_neg (by omega)]
    have hne2 : rollingMeanOpt w (v :: vs) ≠ [] := by
      intro h
      have := rollingMeanOpt_length w (v :: vs)
      rw [h] at this
      simp at this
    have hlast := List.getLast?_eq_getLast_of_ne_nil hne2
    simp [trend_analysis, hhead, hlast, sentimentOpt_nan_start]

/-- Witness for C3 amended: window 1 on `[3]`, window 2 on `[1, 2]`. -/
theorem C3_trend_variants_witness :
    trend_analysis [(3 : ℚ)] 1 = trend_analysisOOP [(3 : ℚ)] 1 ∧
      trend_analysis [(1 : ℚ), 2] 2 = some "Neutral" :=
  ⟨C3_trend_variants.1 [3], C3_trend_variants.2 [1, 2] 2 (by decide) (by decide)⟩

/-- C4 fails as stated for the function-based classifier: on
`[1, 2, 3, 4, 5]` with window 3 the rolling mean has first valid value 2
and last valid value 4, yet `trend_analysis` answers `"Neutral"`, not
`"Positive"`. -/
theorem C4_counterexample :
    ((rollingMeanOpt 3 [1, 2, 3, 4, 5]).filterMap id).head? = some 2 ∧
    ((rollingMeanOpt 3 [1, 2, 3, 4, 5]).filterMap id).getLast? = some 4 ∧
    trend_analysis [1, 2, 3, 4, 5] 3 = some "Neutral" ∧
    trend_analysis [1, 2, 3, 4, 5] 3 ≠ some "Positive" := by
  have h1 : trend_analysis [1, 2, 3, 4, 5] 3 = some "Neutral" := by
    norm_num [trend_analysis, rollingMeanOpt, List.range_succ, sentimentOpt, optGtb]
  refine ⟨?_, ?_, h1, by rw [h1]; decide⟩ <;>
    norm_num [rollingMeanOpt, List.range_succ]

/-- C4 amended: the *class-based* classifier implements the claimed rule:
whenever the valid (non-missing) part of the rolling mean starts at `fv`
and ends at `lv`, it returns `"Positive"` for `fv < lv`, `"Negative"`
for `lv < fv` and `"Neutral"` otherwise. -/
theorem C4_first_last_valid_classifier (vals : List ℚ) (w : Nat) (fv lv : ℚ)
    (hf : ((rollingMeanOpt w vals).filterMap id).head? = some fv)
    (hl : ((rollingMeanOpt w vals).filterMap id).getLast? = some lv) :
    trend_analysisOOP vals w =
      some (if fv < lv then "Positive" else if lv < fv then "Negative" else "Neutral") := by
  simp only [trend_analysisOOP, hf, hl]
  rfl

/-- Witness for C4 amended: the spec's own example, first valid value 2
and last valid value 4, classified `"Positive"`. -/
theorem C4_first_last_valid_classifier_witness :
    ((rollingMeanOpt 3 [1, 2, 3, 4, 5]).filterMap id).head? = some 2 ∧
    ((rollingMeanOpt 3 [1, 2, 3, 4, 5]).filterMap id).getLast? = some 4 ∧
    trend_analysisOOP [1, 2, 3, 4, 5] 3 = some "Positive" := by
  have hf : ((rollingMeanOpt 3 [1, 2, 3, 4, 5]).filterMap id).head? = some 2 := by
    norm_num [rollingMeanOpt, List.range_succ]
  have hl : ((rollingMeanOpt 3 [1, 2, 3, 4, 5]).filterMap id).getLast? = some 4 := by
    norm_num [rollingMeanOpt, List.range_succ]
  refine ⟨hf, hl, ?_⟩
  rw [C4_first_last_valid_classifier [1, 2, 3, 4, 5] 3 2 4 hf hl,
    if_pos (by norm_num : (2 : ℚ) < 4)]

/-! ## Claim C2: alignment with disjoint date sets -/

/-- C2 fails as stated: on fully disjoint date sets the scripts'
`align_data` returns the empty table normally — there is no
`AlignmentError` anywhere in either merge script — whereas the variant
written from the spec's words errors out on the same input. -/
theorem C2_counterexample :
    align_data [⟨0, 1, 1, 1, 1, 1⟩] [⟨1, 50, some 2⟩] = [] ∧
      align_dataSpecRaising [⟨0, 1, 1, 1, 1, 1⟩] [⟨1, 50, some 2⟩] =
        Except.error "AlignmentError" := by
  constructor <;> rfl

/-- C2 amended: when the two tables share no date, the inner join is
empty and `align_data` silently returns the empty table (it never
raises). -/
theorem C2_disjoint_dates_empty_table (stock : List StockRow) (trend : List TrendRow)
    (hdisj : ∀ s ∈ stock, ∀ t ∈ trend, s.date ≠ t.date) :
    mergeOnDate stock trend = [] ∧ align_data stock trend = [] := by
  have hm : mergeOnDate stock trend = [] := by
    induction stock with
    | nil => rfl
    | cons s rest ih =>
      have h1 : matchRow s trend = [] := by
        unfold matchRow
        rw [List.filter_eq_nil_iff.mpr, List.map_nil]
        intro t ht
        simpa using (hdisj s (by simp) t ht).symm
      have h2 : mergeOnDate rest trend = [] := by
        apply ih
        intro s1 hs1 t ht
        exact hdisj s1 (by simp [hs1]) t ht
      show matchRow s trend ++ mergeOnDate rest trend = []
      rw [h1, h2]
      rfl
  exact ⟨hm, by simp [align_data, hm, dropna]⟩

/-- Witness for C2 amended at a concrete disjoint pair. -/
theorem C2_disjoint_dates_empty_table_witness :
    mergeOnDate [⟨2, 1, 1, 1, 1, 1⟩] [⟨3, 50, some 2⟩] = [] ∧
      align_data [⟨2, 1, 1, 1, 1, 1⟩] [⟨3, 50, some 2⟩] = [] :=
  C2_disjoint_dates_empty_table _ _ (by decide)

/-! ## Claim C7: `get_timeframe` -/

theorem prevDay_year_le (d : Date) : (prevDay d).year ≤ d.year := by
  unfold prevDay
  split
  · exact le_refl _
  split
  · exact le_refl _
  · exact Nat.sub_le _ _

theorem subDays_year_le (n : Nat) : ∀ d : Date, (subDays d n).year ≤ d.year := by
  induction n with
  | zero => intro d; exact le_refl _
  | succ m ih => intro d; exact le_trans (ih (prevDay d)) (prevDay_year_le d)

theorem monthLength_pos (y m : Nat) : 1 ≤ monthLength y m := by
  unfold monthLength
  split
  · split <;> norm_num
  · split <;> norm_num

theorem monthLength_dec (y : Nat) : monthLength y 12 = 31 := rfl

theorem prevDay_valid (d : Date) (hv : ValidDate d) (hy : 1 ≤ (prevDay d).year) :
    ValidDate (prevDay d) := by
  obtain ⟨y, m, dy⟩ := d
  obtain ⟨h1, h2, h3, h4, h5⟩ := hv
  dsimp only at h1 h2 h3 h4 h5
  unfold prevDay at hy ⊢
  dsimp only at hy ⊢
  by_cases hd : 2 ≤ dy
  · rw [if_pos hd]
    refine ⟨h1, h2, h3, ?_, ?_⟩
    · show 1 ≤ dy - 1
      omega
    · show dy - 1 ≤ monthLength y m
      omega
  · rw [if_neg hd] at hy ⊢
    by_cases hm : 2 ≤ m
    · rw [if_pos hm]
      refine ⟨h1, ?_, ?_, monthLength_pos _ _, le_refl _⟩
      · show 1 ≤ m - 1
        omega
      · show m - 1 ≤ 12
        omega
    · rw [if_neg hm] at hy ⊢
      refine ⟨hy, by norm_num, by norm_num, by norm_num, ?_⟩
      show 31 ≤ monthLength (y - 1) 12
      rw [monthLength_dec]

theorem prevDay_dateLt (d : Date) (hv : ValidDate d) : dateLt (prevDay d) d := by
  obtain ⟨h1, h2, h3, h4, h5⟩ := hv
  unfold prevDay
  by_cases hd : 2 ≤ d.day
  · rw [if_pos hd]
    refine Or.inr ⟨rfl, Or.inr ⟨rfl, ?_⟩⟩
    show d.day - 1 < d.day
    omega
  · rw [if_neg hd]
    by_cases hm : 2 ≤ d.month
    · rw [if_pos hm]
      refine Or.inr ⟨rfl, Or.inl ?_⟩
      show d.month - 1 < d.month
      omega
    · rw [if_neg hm]
      refine Or.inl ?_
      show d.year - 1 < d.year
      omega

theorem dateLt_trans {a b c : Date} (h1 : dateLt a b) (h2 : dateLt b c) :
    dateLt a c := by
  unfold dateLt at h1 h2 ⊢
  omega

theorem subDays_lt (n : Nat) : ∀ d : Date, ValidDate d →
    1 ≤ (subDays d (n + 1)).year →
    dateLt (subDays d (n + 1)) d ∧ ValidDate (subDays d (n + 1)) := by
  induction n with
  | zero =>
    intro d hv hy
    exact ⟨prevDay_dateLt d hv, prevDay_valid d hv hy⟩
  | succ m ih =>
    intro d hv hy
    have hstep : subDays d (m + 1 + 1) = subDays (prevDay d) (m + 1) := rfl
    have hy2 : 1 ≤ (subDays (prevDay d) (m + 1)).year := by rw [← hstep]; exact hy
    have hpy : 1 ≤ (prevDay d).year :=
      le_trans hy2 (subDays_year_le (m + 1) (prevDay d))
    have hpv : ValidDate (prevDay d) := prevDay_valid d hv hpy
    obtain ⟨hlt, hval⟩ := ih (prevDay d) hpv hy2
    refine ⟨?_, by rw [hstep]; exact hval⟩
    rw [hstep]
    exact dateLt_trans hlt (prevDay_dateLt d hv)

theorem digitChar_isDigit (n : Nat) : (digitChar n).isDigit = true := by
  unfold digitChar
  have h : n % 10 < 10 := Nat.mod_lt _ (by norm_num)
  have hall : ∀ r, r < 10 → (Char.ofNat (48 + r)).isDigit = true := by decide
  exact hall _ h

theorem isYYYYMMDD_formatDate (d : Date) : isYYYYMMDD (formatDate d) = true := by
  unfold isYYYYMMDD formatDate pad4 pad2
  simp [digitChar_isDigit]

/-- C7 fails as stated at `n = 0`: the two rendered dates coincide, so
the first is not chronologically before the second. -/
theorem C7_counterexample :
    subDays ⟨2026, 10, 12⟩ 0 = (⟨2026, 10, 12⟩ : Date) ∧
      ¬ dateLt (subDays ⟨2026, 10, 12⟩ 0) ⟨2026, 10, 12⟩ ∧
      get_timeframe ⟨2026, 10, 12⟩ 0 = "2026-10-12 2026-10-12" := by
  exact ⟨rfl, by decide, by decide⟩

/-- C7 amended: for every valid `today` and every `n` (that does not step
below year 1), `get_timeframe today n` is the `YYYY-MM-DD` rendering of
`today - n days`, a space, and the `YYYY-MM-DD` rendering of `today`;
the first date is chronologically no later than the second, strictly
before it exactly when `n ≥ 1`, and equal to it at `n = 0`.  (The
rendering matches `%Y-%m-%d` for years up to 9999.) -/
theorem C7_get_timeframe_format (today : Date) (n : Nat) (hv : ValidDate today)
    (hy : 1 ≤ (subDays today n).year) :
    get_timeframe today n =
      formatDate (subDays today n) ++ " " ++ formatDate today ∧
    isYYYYMMDD (formatDate (subDays today n)) = true ∧
    isYYYYMMDD (formatDate today) = true ∧
    (subDays today n = today ∨ dateLt (subDays today n) today) ∧
    (1 ≤ n → dateLt (subDays today n) today) ∧
    (n = 0 → subDays today n = today) := by
  refine ⟨rfl, isYYYYMMDD_formatDate _, isYYYYMMDD_formatDate _, ?_, ?_, ?_⟩
  · cases n with
    | zero => exact Or.inl rfl
    | succ m => exact Or.inr (subDays_lt m today hv hy).1
  · intro hn
    obtain ⟨m, rfl⟩ : ∃ m, n = m + 1 := ⟨n - 1, by omega⟩
    exact (subDays_lt m today hv hy).1
  · rintro rfl
    rfl

/-- Witness for C7 amended at `today = 2026-10-12`, `n = 20`. -/
theorem C7_get_timeframe_format_witness :
    get_timeframe ⟨2026, 10, 12⟩ 20 = "2026-09-22 2026-10-12" ∧
      dateLt (subDays ⟨2026, 10, 12⟩ 20) ⟨2026, 10, 12⟩ :=
  ⟨by decide,
   (C7_get_timeframe_format ⟨2026, 10, 12⟩ 20 (by decide) (by decide)).2.2.2.2.1
     (by decide)⟩

/-! ## Claim C9: shape of the correlation matrix -/

theorem covSum_comm (xs ys : List ℚ) : covSum xs ys = covSum ys xs := by
  unfold covSum
  rw [List.zipWith_comm]
  have hfg : (fun b a => (a - colMean xs) * (b - colMean ys)) =
      fun a b => (a - colMean ys) * (b - colMean xs) := by
    funext p q
    ring
  rw [hfg]

theorem varSum_nonneg (xs : List ℚ) : 0 ≤ varSum xs := by
  unfold varSum covSum
  apply List.sum_nonneg
  intro x hx
  rw [List.zipWith_same] at hx
  obtain ⟨a, _, rfl⟩ := List.mem_map.mp hx
  exact mul_self_nonneg _

theorem pearson_comm (xs ys : List ℚ) : pearson xs ys = pearson ys xs := by
  unfold pearson
  rw [covSum_comm, mul_comm ((varSum xs : ℝ)) ((varSum ys : ℝ))]
  exact if_congr or_comm rfl rfl

theorem pearson_nil_left (ys : List ℚ) : pearson [] ys = none := by
  unfold pearson
  rw [if_pos]
  exact Or.inl rfl

theorem pearson_nil_right (xs : List ℚ) : pearson xs [] = none := by
  rw [pearson_comm]
  exact pearson_nil_left xs

theorem pearson_self (xs : List ℚ) (hv : varSum xs ≠ 0) : pearson xs xs = some 1 := by
  unfold pearson
  rw [if_neg (by simp [hv])]
  have h0 : (0 : ℝ) ≤ (varSum xs : ℝ) := by exact_mod_cast varSum_nonneg xs
  rw [Real.sqrt_mul_self h0]
  congr 1
  exact div_self (by exact_mod_cast hv)

theorem corrEntry_eq (cols : List (List ℚ)) (i j : Nat) :
    corrEntry cols i j = pearson (cols.getD i []) (cols.getD j []) := by
  unfold corrEntry calculate_correlation
  by_cases hi : i < cols.length
  · have hi2 : i < (cols.map (fun x => cols.map (fun y => pearson x y))).length := by
      simpa using hi
    rw [List.getD_eq_getElem _ _ hi2, List.getElem_map, List.getD_eq_getElem _ _ hi]
    by_cases hj : j < cols.length
    · have hj2 : j < ((cols.map (fun y => pearson cols[i] y)).length) := by simpa using hj
      rw [List.getD_eq_getElem _ _ hj2, List.getElem_map, List.getD_eq_getElem _ _ hj]
    · have hlen2 : (cols.map (fun y => pearson cols[i] y)).length ≤ j := by
        simpa using (by omega : cols.length ≤ j)
      rw [List.getD_eq_default _ _ hlen2,
        List.getD_eq_default _ _ (by omega : cols.length ≤ j)]
      exact (pearson_nil_right _).symm
  · have hlen : (cols.map (fun x => cols.map (fun y => pearson x y))).length ≤ i := by
      simpa using (by omega : cols.length ≤ i)
    rw [List.getD_eq_default _ _ hlen,
      List.getD_eq_default _ _ (by omega : cols.length ≤ i)]
    simp [List.getD_eq_getElem?_getD, pearson_nil_left]

/-- C9 fails as stated: a merged table with a constant column (here a
single column `[5, 5]`) has a correlation-matrix diagonal entry of `NaN`
(`none`), not 1.0 — pandas' divisor `sqrt(varx * vary)` is zero. -/
theorem C9_counterexample :
    calculate_correlation [[5, 5]] = [[none]] ∧ corrEntry [[5, 5]] 0 0 ≠ some 1 := by
  have hp : pearson [(5 : ℚ), 5] [5, 5] = none := by
    unfold pearson
    rw [if_pos]
    left
    norm_num [varSum, covSum, colMean]
  constructor
  · simp [calculate_correlation, hp]
  · rw [corrEntry_eq]
    simp only [List.getD]
    simp [hp]

/-- C9 amended: the correlation matrix is symmetric (entry `(i, j)`
always equals entry `(j, i)`), and a diagonal entry is 1.0 whenever its
column has nonzero squared-deviation sum (non-constant, at least two
rows); for a constant column the diagonal entry is `NaN` instead. -/
theorem C9_correlation_matrix_shape (cols : List (List ℚ)) :
    (∀ i j, corrEntry cols i j = corrEntry cols j i) ∧
    (∀ i, varSum (cols.getD i []) ≠ 0 → corrEntry cols i i = some 1) := by
  constructor
  · intro i j
    rw [corrEntry_eq, corrEntry_eq, pearson_comm]
  · intro i hv
    rw [corrEntry_eq]
    exact pearson_self _ hv

/-- Witness for C9 amended on the two-column table `[[1, 2], [2, 1]]`. -/
theorem C9_correlation_matrix_shape_witness :
    corrEntry [[1, 2], [2, 1]] 0 1 = corrEntry [[1, 2], [2, 1]] 1 0 ∧
      varSum ([(1 : ℚ), 2]) ≠ 0 ∧ corrEntry [[1, 2], [2, 1]] 0 0 = some 1 := by
  have hv : varSum ([(1 : ℚ), 2]) ≠ 0 := by
    norm_num [varSum, covSum, colMean]
  exact ⟨(C9_correlation_matrix_shape [[1, 2], [2, 1]]).1 0 1, hv,
    (C9_correlation_matrix_shape [[1, 2], [2, 1]]).2 0 hv⟩

/-! ## Claim C1: where the percent change is computed -/

theorem pctChangeFrom_length (prev : ℚ) (l : List ℚ) :
    (pctChangeFrom prev l).length = l.length := by
  induction l generalizing prev with
  | nil => rfl
  | cons v rest ih => simp [pctChangeFrom, ih]

theorem pctChange_length (vals : List ℚ) : (pctChange vals).length = vals.length := by
  cases vals with
  | nil => rfl
  | cons v rest => simp [pctChange, pctChangeFrom_length]

theorem pctChangeFrom_getD (l : List ℚ) (prev : ℚ) (t : Nat) (ht : t < l.length) :
    (pctChangeFrom prev l).getD t 0 =
      (l.getD t 0 - (prev :: l).getD t 0) / (prev :: l).getD t 0 := by
  induction l generalizing prev t with
  | nil => simp at ht
  | cons v rest ih =>
    cases t with
    | zero => simp [pctChangeFrom]
    | succ s =>
      simp only [pctChangeFrom, List.getD_cons_succ]
      exact ih v s (by simpa using ht)

theorem pctChange_getD_zero (vals : List ℚ) : (pctChange vals).getD 0 none = none := by
  cases vals <;> simp [pctChange]

theorem pctChange_getD_succ (vals : List ℚ) (t : Nat) (ht : t + 1 < vals.length) :
    (pctChange vals).getD (t + 1) none =
      some ((vals.getD (t + 1) 0 - vals.getD t 0) / vals.getD t 0) := by
  cases vals with
  | nil => simp at ht
  | cons v rest =>
    have h1 : t < rest.length := by simpa using ht
    simp only [pctChange, List.getD_cons_succ]
    have h2 : t < ((pctChangeFrom v rest).map some).length := by
      simp [pctChangeFrom_length, h1]
    rw [List.getD_eq_getElem _ _ h2, List.getElem_map]
    have h3 : t < (pctChangeFrom v rest).length := by
      simp [pctChangeFrom_length, h1]
    rw [← List.getD_eq_getElem _ 0 h3, pctChangeFrom_getD rest v t h1]

theorem calculate_trend_percentage_length (trend : List (Nat × ℚ)) :
    (calculate_trend_percentage trend).length = trend.length := by
  simp [calculate_trend_percentage, pctChange_length]

theorem calculate_trend_percentage_getD (trend : List (Nat × ℚ)) (j : Nat)
    (hj : j < trend.length) :
    (calculate_trend_percentage trend).getD j ⟨0, 0, none⟩ =
      ⟨(trend.getD j (0, 0)).1, (trend.getD j (0, 0)).2,
        ((pctChange (trend.map Prod.snd)).getD j none).map (· * 100)⟩ := by
  have hj2 : j < (calculate_trend_percentage trend).length := by
    rw [calculate_trend_percentage_length]
    exact hj
  have hjp : j < (pctChange (trend.map Prod.snd)).length := by
    rw [pctChange_length, List.length_map]
    exact hj
  rw [List.getD_eq_getElem _ _ hj2]
  unfold calculate_trend_percentage at hj2 ⊢
  rw [List.getElem_zipWith, ← List.getD_eq_getElem trend (0, 0) hj,
    ← List.getD_eq_getElem _ none hjp]

theorem getD_map_snd (trend : List (Nat × ℚ)) (k : Nat) (hk : k < trend.length) :
    (trend.map Prod.snd).getD k 0 = (trend.getD k (0, 0)).2 := by
  have hk2 : k < (trend.map Prod.snd).length := by simpa using hk
  rw [List.getD_eq_getElem _ _ hk2, List.getElem_map, List.getD_eq_getElem _ _ hk]

theorem mem_calculate_trend_percentage (trend : List (Nat × ℚ)) (t : TrendRow)
    (ht : t ∈ calculate_trend_percentage trend) (p : ℚ) (hp : t.trendPct = some p) :
    ∃ i, i + 1 < trend.length ∧
      t.date = (trend.getD (i + 1) (0, 0)).1 ∧
      t.interest = (trend.getD (i + 1) (0, 0)).2 ∧
      p = ((trend.getD (i + 1) (0, 0)).2 - (trend.getD i (0, 0)).2) /
            (trend.getD i (0, 0)).2 * 100 := by
  obtain ⟨j, hj, hjt⟩ := List.mem_iff_getElem.mp ht
  have hjlen : j < trend.length := by
    have h := calculate_trend_percentage_length trend
    omega
  have hkey : t = (calculate_trend_percentage trend).getD j ⟨0, 0, none⟩ := by
    rw [List.getD_eq_getElem _ _ hj, hjt]
  rw [calculate_trend_percentage_getD trend j hjlen] at hkey
  subst hkey
  simp only at hp
  cases j with
  | zero =>
    rw [pctChange_getD_zero] at hp
    simp at hp
  | succ i =>
    have hi1 : i + 1 < (trend.map Prod.snd).length := by simpa using hjlen
    rw [pctChange_getD_succ (trend.map Prod.snd) i hi1, Option.map_some',
      getD_map_snd trend (i + 1) hjlen, getD_map_snd trend i (by omega)] at hp
    refine ⟨i, hjlen, rfl, rfl, ?_⟩
    exact (Option.some.inj hp).symm

theorem mem_mergeOnDate (stock : List StockRow) (trend : List TrendRow) (r : MergedRowOpt)
    (hr : r ∈ mergeOnDate stock trend) :
    ∃ s ∈ stock, ∃ t ∈ trend, t.date = s.date ∧
      r = ⟨s.date, s.opn, s.high, s.low, s.close, s.volume, t.interest, t.trendPct⟩ := by
  induction stock with
  | nil => simp [mergeOnDate] at hr
  | cons s rest ih =>
    have hsplit : mergeOnDate (s :: rest) trend = matchRow s trend ++ mergeOnDate rest trend :=
      rfl
    rw [hsplit] at hr
    rcases List.mem_append.mp hr with h | h
    · unfold matchRow at h
      obtain ⟨t, ht, hrt⟩ := List.mem_map.mp h
      have htf := List.mem_filter.mp ht
      exact ⟨s, by simp, t, htf.1, by simpa using htf.2, hrt.symm⟩
    · obtain ⟨s1, hs1, t, ht, he, hre⟩ := ih h
      exact ⟨s1, by simp [hs1], t, ht, he, hre⟩

theorem mem_dropna (rows : List MergedRowOpt) (r : MergedRow) (hr : r ∈ dropna rows) :
    ∃ ro ∈ rows, ∃ p, ro.trendPct = some p ∧
      r = ⟨ro.date, ro.opn, ro.high, ro.low, ro.close, ro.volume, ro.interest, p⟩ := by
  unfold dropna at hr
  obtain ⟨ro, hro, hmap⟩ := List.mem_filterMap.mp hr
  obtain ⟨p, hp, hpr⟩ := Option.map_eq_some'.mp hmap
  exact ⟨ro, hro, p, hp, hpr.symm⟩

/-- C1 fails as stated: with interest series
`(0, 10), (1, 20), (2, 40)` and stock rows on dates 0 and 2 only, the
scripts' pipeline (percent change *before* the join) keeps
`trend_percentage = 100` on date 2 (base: pre-join neighbour `20` on
date 1), while the claimed after-join computation yields `300` (base:
previous joined row `10` on date 0). -/
theorem C1_counterexample :
    mergePipeline [(0, 10), (1, 20), (2, 40)]
        [⟨0, 1, 1, 1, 1, 1⟩, ⟨2, 1, 1, 1, 1, 1⟩] =
      [⟨2, 1, 1, 1, 1, 1, 40, 100⟩] ∧
    mergePipelineJoinFirst [(0, 10), (1, 20), (2, 40)]
        [⟨0, 1, 1, 1, 1, 1⟩, ⟨2, 1, 1, 1, 1, 1⟩] =
      [⟨2, 1, 1, 1, 1, 1, 40, 300⟩] ∧
    mergePipeline [(0, 10), (1, 20), (2, 40)]
        [⟨0, 1, 1, 1, 1, 1⟩, ⟨2, 1, 1, 1, 1, 1⟩] ≠
      mergePipelineJoinFirst [(0, 10), (1, 20), (2, 40)]
        [⟨0, 1, 1, 1, 1, 1⟩, ⟨2, 1, 1, 1, 1, 1⟩] := by
  have h1 : mergePipeline [(0, 10), (1, 20), (2, 40)]
      [⟨0, 1, 1, 1, 1, 1⟩, ⟨2, 1, 1, 1, 1, 1⟩] =
      [⟨2, 1, 1, 1, 1, 1, 40, 100⟩] := by
    norm_num [mergePipeline, align_data, mergeOnDate, matchRow, dropna,
      calculate_trend_percentage, pctChange, pctChangeFrom, List.filterMap_cons]
  have h2 : mergePipelineJoinFirst [(0, 10), (1, 20), (2, 40)]
      [⟨0, 1, 1, 1, 1, 1⟩, ⟨2, 1, 1, 1, 1, 1⟩] =
      [⟨2, 1, 1, 1, 1, 1, 40, 300⟩] := by
    norm_num [mergePipelineJoinFirst, mergeOnDate, matchRow, dropna,
      pctChange, pctChangeFrom, List.filterMap_cons]
  refine ⟨h1, h2, ?_⟩
  rw [h1, h2]
  decide

/-- C1 amended: in both merge scripts `trend_percentage` is the percent
change computed over the *pre-join* interest series and carried through
the join: every surviving merged row corresponds to some position
`i + 1` of the raw interest series and carries
`(interest[i+1] - interest[i]) / interest[i] * 100`, where `interest[i]`
is the pre-join predecessor — not the interest of the previous joined
row. -/
theorem C1_trend_pct_prejoin (trendRaw : List (Nat × ℚ)) (stock : List StockRow)
    (r : MergedRow) (hr : r ∈ mergePipeline trendRaw stock) :
    ∃ i, i + 1 < trendRaw.length ∧
      (trendRaw.getD (i + 1) (0, 0)).1 = r.date ∧
      (trendRaw.getD (i + 1) (0, 0)).2 = r.interest ∧
      r.trendPct =
        ((trendRaw.getD (i + 1) (0, 0)).2 - (trendRaw.getD i (0, 0)).2) /
          (trendRaw.getD i (0, 0)).2 * 100 := by
  unfold mergePipeline align_data at hr
  obtain ⟨ro, hro, p, hp, hrp⟩ := mem_dropna _ _ hr
  obtain ⟨s, hs, t, ht, hdate, hform⟩ := mem_mergeOnDate _ _ _ hro
  subst hform
  simp only at hp hrp
  obtain ⟨i, hlen, hd, hint, hpv⟩ := mem_calculate_trend_percentage trendRaw t ht p hp
  subst hrp
  refine ⟨i, hlen, ?_, ?_, ?_⟩
  · show (trendRaw.getD (i + 1) (0, 0)).1 = s.date
    rw [← hd]
    exact hdate
  · show (trendRaw.getD (i + 1) (0, 0)).2 = t.interest
    exact hint.symm
  · exact hpv

/-- Witness for C1 amended: the surviving row of the counterexample
input indeed takes its percent change from the pre-join series. -/
theorem C1_trend_pct_prejoin_witness :
    (⟨2, 1, 1, 1, 1, 1, 40, 100⟩ : MergedRow) ∈
        mergePipeline [(0, 10), (1, 20), (2, 40)]
          [⟨0, 1, 1, 1, 1, 1⟩, ⟨2, 1, 1, 1, 1, 1⟩] ∧
      (∃ i, i + 1 < ([((0 : Nat), (10 : ℚ)), (1, 20), (2, 40)]).length ∧
        (([((0 : Nat), (10 : ℚ)), (1, 20), (2, 40)]).getD (i + 1) (0, 0)).1 =
          (⟨2, 1, 1, 1, 1, 1, 40, 100⟩ : MergedRow).date ∧
        (([((0 : Nat), (10 : ℚ)), (1, 20), (2, 40)]).getD (i + 1) (0, 0)).2 =
          (⟨2, 1, 1, 1, 1, 1, 40, 100⟩ : MergedRow).interest ∧
        (⟨2, 1, 1, 1, 1, 1, 40, 100⟩ : MergedRow).trendPct =
          ((([((0 : Nat), (10 : ℚ)), (1, 20), (2, 40)]).getD (i + 1) (0, 0)).2 -
              (([((0 : Nat), (10 : ℚ)), (1, 20), (2, 40)]).getD i (0, 0)).2) /
            (([((0 : Nat), (10 : ℚ)), (1, 20), (2, 40)]).getD i (0, 0)).2 * 100) := by
  have hmem : (⟨2, 1, 1, 1, 1, 1, 40, 100⟩ : MergedRow) ∈
      mergePipeline [(0, 10), (1, 20), (2, 40)]
        [⟨0, 1, 1, 1, 1, 1⟩, ⟨2, 1, 1, 1, 1, 1⟩] := by
    have h1 : mergePipeline [(0, 10), (1, 20), (2, 40)]
        [⟨0, 1, 1, 1, 1, 1⟩, ⟨2, 1, 1, 1, 1, 1⟩] =
        [⟨2, 1, 1, 1, 1, 1, 40, 100⟩] := by
      norm_num [mergePipeline, align_data, mergeOnDate, matchRow, dropna,
        calculate_trend_percentage, pctChange, pctChangeFrom, List.filterMap_cons]
    rw [h1]
    exact List.mem_singleton.mpr rfl
  exact ⟨hmem, C1_trend_pct_prejoin _ _ _ hmem⟩
